import Mathlib

deriving instance DecidableEq for Except

/-!
Verification of the frontmatter validation core of
`vuepress-validate-frontmatter` (src/index.js), shallowly embedded in Lean.

JavaScript values that can appear as frontmatter metadata are modelled by
`Value`; the `type` field of a field spec (a JS value used as the right-hand
side of `instanceof` and as the argument of `getType`) is modelled by
`TypeDesc`.  Code paths that can throw a JS `TypeError` (namely `instanceof`
with a right-hand side that is not callable or has a non-object `prototype`)
return `Except String`.
-/

namespace FrontmatterLint

/-- A JavaScript runtime value, as relevant to the validator.
A structured (object-like) value carries an object identity `id` (strict
equality `===` on objects is reference equality), the list of class names it
is an instance of (its prototype chain, used to model `instanceof`), and an
abstract content fingerprint (two objects are deep-equal when their class
chains and fingerprints agree). -/
inductive Value where
  | vNull
  | vUndefined
  | vStr (s : String)
  | vNum (n : Int)
  | vBool (b : Bool)
  | vFun (id : Nat)
  | vSym (id : Nat)
  | vObj (id : Nat) (classes : List String) (content : Nat)
deriving DecidableEq, Repr

/-- The JS `typeof` operator on a `Value` (note `typeof null` is "object"). -/
def typeofJs : Value → String
  | .vNull => "object"
  | .vUndefined => "undefined"
  | .vStr _ => "string"
  | .vNum _ => "number"
  | .vBool _ => "boolean"
  | .vFun _ => "function"
  | .vSym _ => "symbol"
  | .vObj _ _ _ => "object"

/-- JS strict equality `===` restricted to the values of our model:
primitives compare by value, objects / functions / symbols by identity. -/
def strictEq : Value → Value → Bool
  | .vNull, .vNull => true
  | .vUndefined, .vUndefined => true
  | .vStr a, .vStr b => a == b
  | .vNum a, .vNum b => a == b
  | .vBool a, .vBool b => a == b
  | .vFun a, .vFun b => a == b
  | .vSym a, .vSym b => a == b
  | .vObj a _ _, .vObj b _ _ => a == b
  | _, _ => false

/-- Deep (structural) equality: on objects it compares class chain and
content fingerprint, ignoring identity; elsewhere it agrees with `===`. -/
def deepEq : Value → Value → Bool
  | .vObj _ cs c, .vObj _ cs' c' => cs == cs' && c == c'
  | a, b => strictEq a b

/-- The class names a value is an instance of; primitives are instances of
nothing (`x instanceof C` is false for non-objects), functions are objects. -/
def classesOf : Value → List String
  | .vObj _ cs _ => cs
  | .vFun _ => ["Function", "Object"]
  | _ => []

/-- The JS value stored in a field spec's `type` slot, seen through the two
operations the source applies to it.
`truthy`: whether the value is truthy (`fn && ...` in `getType`).
`srcName`: the result of matching the value's `toString()` against
`/^\s*function (\w+)/` (`some name` for the built-in constructors, `none`
for arrow functions, anonymous functions and non-function objects).
`isCallable` and `protoIsObject`: whether `x instanceof type` is defined
(it throws a TypeError unless the right-hand side is callable and its
`prototype` is an object).
`className`: the class this value tests membership of under `instanceof`. -/
structure TypeDesc where
  truthy : Bool
  srcName : Option String
  isCallable : Bool
  protoIsObject : Bool
  className : String
deriving DecidableEq, Repr

/-- src/index.js `getType` (lines 225-228): `fn && fn.toString().match(...)`,
returning the captured name, or the empty string when `fn` is falsy or its
textual form does not match. -/
def getType (t : TypeDesc) : String :=
  if t.truthy then
    match t.srcName with
    | some n => n
    | none => ""
  else ""

def instanceofNotCallableMsg : String :=
  "TypeError: Right-hand side of instanceof is not callable"

def instanceofBadProtoMsg : String :=
  "TypeError: Function has non-object prototype in instanceof check"

/-- JS `value instanceof type`: throws a TypeError when `type` is not
callable or its `prototype` is not an object; otherwise tests whether the
value's class chain contains the type's class. -/
def instanceOf (v : Value) (t : TypeDesc) : Except String Bool :=
  if t.isCallable = false then .error instanceofNotCallableMsg
  else if t.protoIsObject = false then .error instanceofBadProtoMsg
  else .ok ((classesOf v).contains t.className)

/-- The anchored regex `/^(String|Number|Boolean|Function|Symbol)$/`
(line 199): exact equality with one of the five primitive-kind names. -/
def simpleCheck (s : String) : Bool :=
  s == "String" || s == "Number" || s == "Boolean" || s == "Function" || s == "Symbol"

/-- `expectedType.toLowerCase()`, character by character. -/
def toLowerCase (s : String) : String := ⟨s.data.map Char.toLower⟩

structure AssertResult where
  valid : Bool
  expectedType : String
deriving DecidableEq, Repr

/-- src/index.js `assertType` (lines 201-218): primitive fast path via
`typeof` with an `instanceof` fallback for boxed primitives, and a plain
`instanceof` check for non-primitive expected types. -/
def assertType (value : Value) (type : TypeDesc) : Except String AssertResult :=
  let expectedType := getType type
  if simpleCheck expectedType then
    let t := typeofJs value
    let valid := t == toLowerCase expectedType
    if (valid == false && t == "object") = true then do
      let b ← instanceOf value type
      pure ⟨b, expectedType⟩
    else
      pure ⟨valid, expectedType⟩
  else do
    let b ← instanceOf value type
    pure ⟨b, expectedType⟩

/-- `allowedValues.indexOf(value) > -1` (lines 195-197); `Array.indexOf`
compares the elements to `value` with strict equality. -/
def assertAllowedValue (value : Value) (allowedValues : List Value) : Bool :=
  allowedValues.any (fun w => strictEq w value)

/-- The built-in `String` constructor as a type descriptor: truthy, its
`toString()` matches with name "String", callable, `prototype` an object. -/
def stringCtor : TypeDesc := ⟨true, some "String", true, true, "String"⟩

/-- The built-in `Number` constructor. -/
def numberCtor : TypeDesc := ⟨true, some "Number", true, true, "Number"⟩

/-- The built-in `Object` constructor ("Object" is not matched by the
primitive-kind regex, so it takes the structural branch). -/
def objectCtor : TypeDesc := ⟨true, some "Object", true, true, "Object"⟩

/-- A plain object literal used (wrongly) as a type: truthy, its
`toString()` is "[object Object]" (no regex match), not callable. -/
def plainObjDesc : TypeDesc := ⟨true, none, false, false, "Object"⟩

/-- An anonymous function expression used as a type: callable with an
object `prototype`, but its `toString()` has no name to capture. -/
def anonFnDesc : TypeDesc := ⟨true, none, true, true, "Anonymous"⟩

/-- One constraint descriptor of the schema. `required` models
`s.required === true`; `allowedValues` is present exactly when the spec
object has an own `allowedValues` property. -/
structure FieldSpec where
  required : Bool
  type : TypeDesc
  allowedValues : Option (List Value)
deriving DecidableEq, Repr

/-- A JS string-keyed object as an association list in insertion order
(JS objects have unique keys; all objects built by the source do). -/
abbrev Schema := List (String × FieldSpec)

abbrev Frontmatter := List (String × Value)

/-- The error objects pushed by `extendPageData`.  In the source the
`expected` field of an INVALID_VALUE error holds
`JSON.stringify(allowedValues)`; we keep the list itself, and the
`expected` of INVALID_TYPE holds `getType(spec.type)`. -/
inductive Violation where
  | missingKey (key : String)
  | emptyKey
  | invalidKey (key : String)
  | emptyValue (key : String)
  | invalidType (key : String) (expected : String) (got : String)
  | invalidValue (key : String) (expected : List Value) (got : Value)
deriving DecidableEq, Repr

/-- `value === null || typeof value === 'undefined'` (line 70). -/
def isEmptyValue : Value → Bool
  | .vNull => true
  | .vUndefined => true
  | _ => false

/-- `hasOwn(specs, key)` followed by `specs[key]` on the schema object. -/
def lookupSpec (specs : Schema) (key : String) : Option FieldSpec :=
  (specs.find? (fun p => p.1 == key)).map (fun p => p.2)

/-- The body of the per-key `forEach` (lines 55-98): the chain of early
returns produces at most one violation for the key, or throws when
`assertType` throws.  The checks run in source order: empty key, undeclared
key, null/undefined value, type match, allowed-value membership. -/
def checkKey (specs : Schema) (key : String) (value : Value) :
    Except String (Option Violation) :=
  if key == "" then pure (some .emptyKey)
  else
    match lookupSpec specs key with
    | none => pure (some (.invalidKey key))
    | some spec =>
      if isEmptyValue value then pure (some (.emptyValue key))
      else do
        let r ← assertType value spec.type
        if r.valid = false then
          pure (some (.invalidType key (getType spec.type) (typeofJs value)))
        else
          match spec.allowedValues with
          | none => pure none
          | some av =>
            if assertAllowedValue value av = false then
              pure (some (.invalidValue key av value))
            else pure none

/-- `Object.keys(pickBy(specs, s => s.required === true))` (line 44):
the required field names, in schema order. -/
def requiredFields (specs : Schema) : List String :=
  (specs.filter (fun p => p.2.required)).map (fun p => p.1)

/-- The required-field sweep (lines 45-53): one MISSING_KEY per required
field absent from the record's metadata keys. -/
def missingViolations (specs : Schema) (fm : Frontmatter) : List Violation :=
  (requiredFields specs).filterMap (fun f =>
    if (fm.map (fun q => q.1)).contains f then none
    else some (.missingKey f))

/-- The per-key sweep as a pure list of violations, in the record's own key
order; `.error` when some key's `assertType` throws (the violations of the
earlier keys are then lost from this pure view, but not from the stateful
`runKeys` below). -/
def keyViolations (specs : Schema) : Frontmatter → Except String (List Violation)
  | [] => pure []
  | q :: rest => do
    let o ← checkKey specs q.1 q.2
    let more ← keyViolations specs rest
    pure (o.toList ++ more)

/-- The module-level `errorsByPath` accumulator: path → ordered violations,
entries in insertion order. -/
abbrev Collector := List (String × List Violation)

def hasPath (st : Collector) (path : String) : Bool :=
  st.any (fun p => p.1 == path)

/-- src/index.js `addError` (lines 188-193): create the path's entry on
first use, then push. -/
def addError (st : Collector) (path : String) (e : Violation) : Collector :=
  if hasPath st path then
    st.map (fun p => if p.1 == path then (p.1, p.2 ++ [e]) else p)
  else st ++ [(path, [e])]

/-- The stateful per-key sweep: each triggered check appends its violation
to the collector immediately; a thrown `assertType` aborts the sweep,
keeping what was already appended (second component: the thrown message). -/
def runKeys (specs : Schema) (path : String) :
    Frontmatter → Collector → Collector × Option String
  | [], st => (st, none)
  | q :: rest, st =>
    match checkKey specs q.1 q.2 with
    | .error m => (st, some m)
    | .ok none => runKeys specs path rest st
    | .ok (some e) => runKeys specs path rest (addError st path e)

/-- One document record handed to the `extendPageData` hook. -/
structure Page where
  regularPath : String
  frontmatter : Frontmatter

/-- src/index.js `extendPageData` (lines 32-99).  `excluded` is the
externally supplied exclusion predicate (`mm([regularPath], exclude)`
producing a non-empty match list).  Returns the updated collector and the
message of a thrown TypeError, if any. -/
def extendPageData (specs : Schema) (excluded : String → Bool) (page : Page)
    (st : Collector) : Collector × Option String :=
  if excluded page.regularPath then (st, none)
  else
    runKeys specs page.regularPath page.frontmatter
      ((missingViolations specs page.frontmatter).foldl
        (fun s e => addError s page.regularPath e) st)

/-- The whole pass of one record as a pure violation list: required sweep
first, then the per-key sweep in key order. -/
def pageViolations (specs : Schema) (fm : Frontmatter) :
    Except String (List Violation) := do
  let kv ← keyViolations specs fm
  pure (missingViolations specs fm ++ kv)

/-- The `options.specs` value as handed to the plugin factory, seen through
the two guards of lines 13-26: falsiness and `typeof`. An array is an
object-typed value with `isArray = true` (in JS, `typeof [] === 'object'`). -/
inductive SpecsValue where
  | absent
  | nonObj (typeofName : String)
  | objLike (isArray : Bool) (entries : Schema)
deriving Repr

/-- Truthiness of the specs value (`if (!specs)`, line 13). -/
def SpecsValue.truthy : SpecsValue → Bool
  | .absent => false
  | _ => true

/-- The JS `typeof` of the specs value: every object, arrays included,
has typeof "object". -/
def SpecsValue.typeofName : SpecsValue → String
  | .absent => "undefined"
  | .nonObj t => t
  | .objLike _ _ => "object"

def SpecsValue.entries : SpecsValue → Schema
  | .objLike _ e => e
  | _ => []

/-- What the plugin factory returns: a hook-less no-op plugin (specs absent,
line 17, or invalid specs type, line 25) or the active validator. -/
inductive PluginInit where
  | noSpecs
  | invalidType (got : String)
  | active (specs : Schema)
deriving Repr

/-- The guards of `module.exports` (lines 13-26): `!specs` → no-op;
`typeof specs !== 'object'` → no-op with the invalid-type message;
otherwise the validating plugin is returned. -/
def pluginInit (specs : SpecsValue) : PluginInit :=
  if specs.truthy = false then .noSpecs
  else if (specs.typeofName == "object") = false then .invalidType specs.typeofName
  else .active specs.entries

/-- Folding `extendPageData` over a corpus; a thrown TypeError aborts the
run with the collector as mutated so far. -/
def runPages (specs : Schema) (excluded : String → Bool) :
    List Page → Collector → Collector × Option String
  | [], st => (st, none)
  | p :: rest, st =>
    match extendPageData specs excluded p st with
    | (st', none) => runPages specs excluded rest st'
    | (st', some m) => (st', some m)

/-- A full corpus run through the plugin factory: when the factory returned
a no-op plugin, no `extendPageData` hook exists, so nothing is validated
and the collector stays empty. -/
def pluginRun (specs : SpecsValue) (excluded : String → Bool)
    (pages : List Page) : Collector × Option String :=
  match pluginInit specs with
  | .active entries => runPages entries excluded pages []
  | _ => ([], none)

/-- Written from the spec's words, for comparison with `pluginInit`: "a
Schema value (mapping; must be a genuine mapping type, not a bare
function/list)" — a genuine mapping is a non-array object. -/
def specIsGenuineMapping : SpecsValue → Bool
  | .objLike isArr _ => !isArr
  | _ => false

/-- The `updated()` hook (lines 100-104): renders a console report when the
collector is non-empty, without touching it.  Result: the collector after
the hook, and the mapping that was reported (if any). -/
def updatedPhase (st : Collector) : Collector × Option Collector :=
  if st.length ≠ 0 then (st, some st) else (st, none)

/-- Line 107: `errorsByPath = options.postProcessErrors(errorsByPath, ctx)`
when the hook is supplied, the identity otherwise. -/
def applyPostProcess (postProcess : Option (Collector → Collector))
    (st : Collector) : Collector :=
  match postProcess with
  | some f => f st
  | none => st

/-- The `ready()` hook (lines 105-125), file dump and process exit elided:
apply `postProcessErrors` if supplied, then, when the result is non-empty,
report it and reset the collector to `{}`.  Result: the collector after the
hook, and the mapping that was reported (if any). -/
def readyPhase (postProcess : Option (Collector → Collector))
    (st : Collector) : Collector × Option Collector :=
  if (applyPostProcess postProcess st).length ≠ 0 then
    ([], some (applyPostProcess postProcess st))
  else (applyPostProcess postProcess st, none)

/-! ### Helper lemmas about the collector and the sweeps -/

lemma map_update_id (st : Collector) (path : String) (e : Violation)
    (h : hasPath st path = false) :
    st.map (fun p => if p.1 == path then (p.1, p.2 ++ [e]) else p) = st := by
  induction st with
  | nil => rfl
  | cons q rest ih =>
    simp only [hasPath, List.any_cons, Bool.or_eq_false_iff] at h
    simp only [List.map_cons, h.1, Bool.false_eq_true, if_false, List.cons.injEq, true_and]
    exact ih h.2

lemma addError_fresh (st : Collector) (path : String) (e : Violation)
    (h : hasPath st path = false) :
    addError st path e = st ++ [(path, [e])] := by
  simp [addError, h]

lemma hasPath_append_one (st : Collector) (path : String) (acc : List Violation) :
    hasPath (st ++ [(path, acc)]) path = true := by
  simp [hasPath]

lemma addError_append_last (st : Collector) (path : String) (acc : List Violation)
    (e : Violation) (h : hasPath st path = false) :
    addError (st ++ [(path, acc)]) path e = st ++ [(path, acc ++ [e])] := by
  unfold addError
  rw [hasPath_append_one, if_pos rfl, List.map_append, map_update_id st path e h]
  simp

lemma foldl_addError_acc (path : String) (st : Collector)
    (h : hasPath st path = false) (l : List Violation) :
    ∀ acc : List Violation,
      l.foldl (fun s e => addError s path e) (st ++ [(path, acc)]) =
        st ++ [(path, acc ++ l)] := by
  induction l with
  | nil => intro acc; simp
  | cons e rest ih =>
    intro acc
    rw [List.foldl_cons, addError_append_last st path acc e h, ih (acc ++ [e])]
    simp

lemma foldl_addError_fresh (path : String) (st : Collector)
    (h : hasPath st path = false) (l : List Violation) :
    l.foldl (fun s e => addError s path e) st =
      if l = [] then st else st ++ [(path, l)] := by
  cases l with
  | nil => simp
  | cons e rest =>
    rw [List.foldl_cons, addError_fresh st path e h, foldl_addError_acc path st h rest [e]]
    simp

lemma runKeys_ok (specs : Schema) (path : String) :
    ∀ (fm : Frontmatter) (kv : List Violation) (st : Collector),
      keyViolations specs fm = .ok kv →
      runKeys specs path fm st =
        (kv.foldl (fun s e => addError s path e) st, none) := by
  intro fm
  induction fm with
  | nil =>
    intro kv st h
    simp only [keyViolations, pure, Except.pure, Except.ok.injEq] at h
    subst h
    rfl
  | cons q rest ih =>
    intro kv st h
    simp only [keyViolations, bind, Except.bind] at h
    cases hc : checkKey specs q.1 q.2 with
    | error m => rw [hc] at h; cases h
    | ok o =>
      rw [hc] at h
      cases hr : keyViolations specs rest with
      | error m => rw [hr] at h; cases h
      | ok more =>
        rw [hr] at h
        simp only [pure, Except.pure, Except.ok.injEq] at h
        subst h
        cases o with
        | none =>
          simp only [runKeys, hc, Option.toList_none, List.nil_append]
          exact ih more st hr
        | some e =>
          simp only [runKeys, hc, Option.toList_some, List.foldl_cons]
          exact ih more (addError st path e) hr

lemma extendPageData_ok (specs : Schema) (excluded : String → Bool) (page : Page)
    (st : Collector) (kv : List Violation)
    (hex : excluded page.regularPath = false)
    (hkv : keyViolations specs page.frontmatter = .ok kv) :
    extendPageData specs excluded page st =
      ((missingViolations specs page.frontmatter ++ kv).foldl
        (fun s e => addError s page.regularPath e) st, none) := by
  unfold extendPageData
  rw [hex]
  simp only [Bool.false_eq_true, if_false]
  rw [runKeys_ok specs page.regularPath page.frontmatter kv _ hkv, List.foldl_append]

lemma checkKey_clean (specs : Schema) (key : String) (value : Value)
    (spec : FieldSpec) (r : AssertResult)
    (hk : (key == "") = false)
    (hs : lookupSpec specs key = some spec)
    (he : isEmptyValue value = false)
    (ht : assertType value spec.type = .ok r)
    (hv : r.valid = true)
    (ha : ∀ av, spec.allowedValues = some av → assertAllowedValue value av = true) :
    checkKey specs key value = .ok none := by
  cases hav : spec.allowedValues with
  | none =>
    unfold checkKey
    rw [hk]
    simp [hs, he, bind, Except.bind, ht, hv, hav, pure, Except.pure]
  | some av =>
    unfold checkKey
    rw [hk]
    simp [hs, he, bind, Except.bind, ht, hv, hav, ha av hav, pure, Except.pure]

lemma update_keys_id (st : Collector) (path : String) (e : Violation) :
    (st.map (fun p => if p.1 == path then (p.1, p.2 ++ [e]) else p)).map
        (fun p => p.1) =
      st.map (fun p => p.1) := by
  induction st with
  | nil => rfl
  | cons q rest ih =>
    simp only [List.map_cons, List.cons.injEq]
    refine ⟨?_, ih⟩
    split <;> rfl

lemma filterMap_if_missing (l : List String) (g : String → Bool) :
    l.filterMap (fun f => if g f then none else some (Violation.missingKey f)) =
      (l.filter (fun f => !g f)).map Violation.missingKey := by
  induction l with
  | nil => rfl
  | cons f rest ih =>
    by_cases hf : g f
    · simp [hf, ih]
    · simp [hf, ih]

/-! ### The claims -/

/-- Claim C1: the per-key validation pass emits at most one violation per
metadata key — the checks EMPTY_KEY, INVALID_KEY, EMPTY_VALUE,
INVALID_TYPE, INVALID_VALUE short-circuit at the first that triggers — and
in particular, when the type match fails for a key, exactly one
INVALID_TYPE violation is emitted for that key and no INVALID_VALUE
violation, even when the field spec declares `allowedValues`. -/
theorem C1_per_key_chain (specs : Schema) (k : String) (v : Value) :
    (∀ o, checkKey specs k v = .ok o → o.toList.length ≤ 1) ∧
    (∀ (spec : FieldSpec) (r : AssertResult), (k == "") = false →
      lookupSpec specs k = some spec → isEmptyValue v = false →
      assertType v spec.type = .ok r → r.valid = false →
      checkKey specs k v =
        .ok (some (.invalidType k (getType spec.type) (typeofJs v)))) := by
  constructor
  · intro o _
    cases o <;> simp
  · intro spec r hk hs he ht hv
    unfold checkKey
    rw [hk]
    simp [hs, he, bind, Except.bind, ht, hv, pure, Except.pure]

/-- Witness for C1, at the spec's Scenario 3 extended with an
`allowedValues` constraint: the string "5" against a required Number field
yields exactly the INVALID_TYPE violation, no INVALID_VALUE. -/
theorem C1_witness :
    checkKey [("count", ⟨false, numberCtor, some [Value.vNum 3]⟩)] "count"
        (Value.vStr "5") =
      .ok (some (.invalidType "count" "Number" "string")) :=
  (C1_per_key_chain [("count", ⟨false, numberCtor, some [Value.vNum 3]⟩)]
      "count" (Value.vStr "5")).2
    ⟨false, numberCtor, some [Value.vNum 3]⟩ ⟨false, "Number"⟩
    rfl rfl rfl rfl rfl

/-- Counterexample to claim C2: `assertType` is not total — a plain
(non-callable) object used as the expected type resolves to the empty
canonical name and the structural `instanceof` check then throws a
TypeError instead of failing closed. -/
theorem C2_counterexample :
    assertType (Value.vStr "x") plainObjDesc =
      .error instanceofNotCallableMsg := rfl

/-- Claim C2 as amended: provided the expected-type descriptor is callable
and its prototype is an object (so that `instanceof` is defined),
`assertType` never throws; when the descriptor resolves to the empty
canonical name the primitive fast path is not taken and the structural
check decides validity, reporting invalid whenever the value's class chain
does not contain the descriptor's class. -/
theorem C2_fail_closed (v : Value) (t : TypeDesc)
    (hc : t.isCallable = true) (hp : t.protoIsObject = true) :
    ∃ r, assertType v t = .ok r ∧
      (getType t = "" →
        simpleCheck (getType t) = false ∧
        r.valid = (classesOf v).contains t.className) := by
  have hinst : instanceOf v t = .ok ((classesOf v).contains t.className) := by
    simp [instanceOf, hc, hp]
  unfold assertType
  by_cases hs : simpleCheck (getType t) = true
  · rw [if_pos hs]
    by_cases hb : ((typeofJs v == toLowerCase (getType t)) == false &&
        (typeofJs v == "object")) = true
    · rw [if_pos hb]
      refine ⟨⟨(classesOf v).contains t.className, getType t⟩, ?_, ?_⟩
      · simp [hinst, bind, Except.bind, pure, Except.pure]
      · intro hempty
        rw [hempty] at hs
        exact absurd hs (by decide)
    · rw [if_neg hb]
      refine ⟨⟨typeofJs v == toLowerCase (getType t), getType t⟩, rfl, ?_⟩
      intro hempty
      rw [hempty] at hs
      exact absurd hs (by decide)
  · rw [if_neg hs]
    refine ⟨⟨(classesOf v).contains t.className, getType t⟩, ?_, ?_⟩
    · simp [hinst, bind, Except.bind, pure, Except.pure]
    · intro _
      exact ⟨by simpa using hs, rfl⟩

/-- Witness for C2 as amended: an anonymous function used as the expected
type — callable, object prototype, unresolvable name — makes `assertType`
on the string "x" return a result (no throw) with `valid = false`. -/
theorem C2_witness :
    anonFnDesc.isCallable = true ∧
    ∃ r, assertType (Value.vStr "x") anonFnDesc = .ok r ∧
      (getType anonFnDesc = "" →
        simpleCheck (getType anonFnDesc) = false ∧
        r.valid = (classesOf (Value.vStr "x")).contains anonFnDesc.className) :=
  ⟨rfl, C2_fail_closed (Value.vStr "x") anonFnDesc rfl rfl⟩

/-- Counterexample to claim C3: a list is not a genuine mapping, yet the
factory's `typeof specs !== 'object'` guard does not reject it (in JS
`typeof [] === 'object'`): the plugin comes back active and per-document
validation runs, recording a violation. -/
theorem C3_counterexample :
    specIsGenuineMapping
        (.objLike true [("0", ⟨true, stringCtor, none⟩)]) = false ∧
    pluginInit (.objLike true [("0", ⟨true, stringCtor, none⟩)]) =
      .active [("0", ⟨true, stringCtor, none⟩)] ∧
    pluginRun (.objLike true [("0", ⟨true, stringCtor, none⟩)])
        (fun _ => false) [⟨"/a.md", []⟩] =
      ([("/a.md", [.missingKey "0"])], none) :=
  ⟨rfl, rfl, rfl⟩

/-- Claim C3 as amended: a supplied schema value whose `typeof` is not
"object" (a bare function, string, number, ...) is rejected before any
document is processed — the factory returns the hook-less plugin with the
descriptive invalid-type message, no per-document validation runs and no
violation is ever recorded; a list, however, passes the `typeof` guard. -/
theorem C3_reject_nonobject (t : String) (excluded : String → Bool)
    (pages : List Page) (h : t ≠ "object") :
    pluginInit (.nonObj t) = .invalidType t ∧
    pluginRun (.nonObj t) excluded pages = ([], none) := by
  have hinit : pluginInit (.nonObj t) = .invalidType t := by
    simp [pluginInit, SpecsValue.truthy, SpecsValue.typeofName, h]
  refine ⟨hinit, ?_⟩
  unfold pluginRun
  rw [hinit]

/-- Witness for C3 as amended: a bare function as `specs` (typeof
"function") is rejected and a corpus run records nothing. -/
theorem C3_witness :
    pluginInit (.nonObj "function") = .invalidType "function" ∧
    pluginRun (.nonObj "function") (fun _ => false)
        [⟨"/a.md", [("", Value.vNull)]⟩] = ([], none) :=
  C3_reject_nonobject "function" (fun _ => false)
    [⟨"/a.md", [("", Value.vNull)]⟩] (by decide)

/-- The per-key sweep yields no violation when every present key is
declared, non-empty, non-null, well-typed and allowed. -/
lemma keyViolations_clean (specs : Schema) : ∀ fm : Frontmatter,
    (∀ q ∈ fm, (q.1 == "") = false ∧
      ∃ spec, lookupSpec specs q.1 = some spec ∧
        isEmptyValue q.2 = false ∧
        ∃ r, assertType q.2 spec.type = .ok r ∧ r.valid = true ∧
          ∀ av, spec.allowedValues = some av →
            assertAllowedValue q.2 av = true) →
    keyViolations specs fm = .ok [] := by
  intro fm
  induction fm with
  | nil => intro _; rfl
  | cons q rest ih =>
    intro h
    obtain ⟨hk, spec, hs, he, r, ht, hv, ha⟩ := h q (List.mem_cons_self q rest)
    have hrest := ih (fun p hp => h p (List.mem_cons_of_mem q hp))
    simp [keyViolations, bind, Except.bind,
      checkKey_clean specs q.1 q.2 spec r hk hs he ht hv ha, hrest,
      pure, Except.pure]

/-- Counterexample to claim C4: in the schema `{title: required String}`
and the record `/d.md` with metadata `{title: "Hi", extra: 1}`, every
schema-declared required field is present, well-typed and unconstrained by
`allowedValues`, yet the violation list is not empty — the undeclared key
`extra` produces an INVALID_KEY violation (the spec's own Scenario 4). -/
theorem C4_counterexample :
    requiredFields [("title", ⟨true, stringCtor, none⟩)] = ["title"] ∧
    (([("title", Value.vStr "Hi"), ("extra", Value.vNum 1)] :
        Frontmatter).map (fun q => q.1)).contains "title" = true ∧
    assertType (Value.vStr "Hi") stringCtor = .ok ⟨true, "String"⟩ ∧
    pageViolations [("title", ⟨true, stringCtor, none⟩)]
        [("title", Value.vStr "Hi"), ("extra", Value.vNum 1)] =
      .ok [.invalidKey "extra"] ∧
    pageViolations [("title", ⟨true, stringCtor, none⟩)]
        [("title", Value.vStr "Hi"), ("extra", Value.vNum 1)] ≠
      .ok ([] : List Violation) := by
  refine ⟨rfl, rfl, rfl, rfl, ?_⟩
  intro h
  rw [show pageViolations [("title", ⟨true, stringCtor, none⟩)]
      [("title", Value.vStr "Hi"), ("extra", Value.vNum 1)] =
      .ok [.invalidKey "extra"] from rfl] at h
  exact List.cons_ne_nil _ _ (Except.ok.inj h)

/-- Claim C4 as amended: the violation list of a record is empty when every
schema-declared required field is present AND every key present in the
record's metadata is non-empty, declared in the schema, has a non-null,
non-undefined value that passes the type match and (when the field spec
declares `allowedValues`) is a member of the allowed set. -/
theorem C4_clean_record (specs : Schema) (fm : Frontmatter)
    (hreq : ∀ p ∈ specs, p.2.required = true →
      (fm.map (fun q => q.1)).contains p.1 = true)
    (hkeys : ∀ q ∈ fm, (q.1 == "") = false ∧
      ∃ spec, lookupSpec specs q.1 = some spec ∧
        isEmptyValue q.2 = false ∧
        ∃ r, assertType q.2 spec.type = .ok r ∧ r.valid = true ∧
          ∀ av, spec.allowedValues = some av →
            assertAllowedValue q.2 av = true) :
    pageViolations specs fm = .ok [] := by
  have hmiss : missingViolations specs fm = [] := by
    unfold missingViolations
    rw [List.filterMap_eq_nil_iff]
    intro f hf
    unfold requiredFields at hf
    rw [List.mem_map] at hf
    obtain ⟨p, hp, rfl⟩ := hf
    rw [List.mem_filter] at hp
    rw [hreq p hp.1 hp.2]
    rfl
  simp [pageViolations, bind, Except.bind, keyViolations_clean specs fm hkeys,
    hmiss, pure, Except.pure]

/-- Witness for C4 as amended: schema `{title: required String}` and
record metadata `{title: "Hi"}` yield an empty violation list. -/
theorem C4_witness :
    pageViolations [("title", ⟨true, stringCtor, none⟩)]
      [("title", Value.vStr "Hi")] = .ok [] :=
  C4_clean_record [("title", ⟨true, stringCtor, none⟩)]
    [("title", Value.vStr "Hi")] (by decide)
    (by
      intro q hq
      simp only [List.mem_singleton] at hq
      subst hq
      exact ⟨rfl, ⟨true, stringCtor, none⟩, rfl, rfl,
        ⟨true, "String"⟩, rfl, rfl, fun av h => by cases h⟩)

/-- Claim C5: for a validated (non-excluded) record whose per-key sweep
completes, the entry recorded for it is exactly the required-field sweep's
MISSING_KEY violations — one per required field absent from the record's
keys, in schema order — followed by the per-key sweep's violations in the
record's own key order; no entry appears when both sweeps are clean. -/
theorem C5_concatenation (specs : Schema) (excluded : String → Bool)
    (page : Page) (st : Collector) (kv : List Violation)
    (hex : excluded page.regularPath = false)
    (hfresh : hasPath st page.regularPath = false)
    (hkv : keyViolations specs page.frontmatter = .ok kv) :
    extendPageData specs excluded page st =
      (if missingViolations specs page.frontmatter ++ kv = [] then st
       else st ++ [(page.regularPath,
          missingViolations specs page.frontmatter ++ kv)], none) ∧
    missingViolations specs page.frontmatter =
      ((requiredFields specs).filter
        (fun f => !(page.frontmatter.map (fun q => q.1)).contains f)).map
        Violation.missingKey := by
  constructor
  · rw [extendPageData_ok specs excluded page st kv hex hkv,
      foldl_addError_fresh page.regularPath st hfresh]
  · exact filterMap_if_missing (requiredFields specs) _

/-- Witness for C5: schema `{title: required String}` against `/d.md` with
`{title: "Hi", extra: 1}` records the entry `[INVALID_KEY extra]` (empty
required sweep concatenated with the per-key sweep). -/
theorem C5_witness :
    extendPageData [("title", ⟨true, stringCtor, none⟩)] (fun _ => false)
        ⟨"/d.md", [("title", Value.vStr "Hi"), ("extra", Value.vNum 1)]⟩ [] =
      ([("/d.md", [.invalidKey "extra"])], none) := by
  have h := (C5_concatenation [("title", ⟨true, stringCtor, none⟩)]
      (fun _ => false)
      ⟨"/d.md", [("title", Value.vStr "Hi"), ("extra", Value.vNum 1)]⟩ []
      [.invalidKey "extra"] rfl rfl rfl).1
  exact h.trans (by decide)

/-- Counterexample to claim C6: the intermediate `updated()`-phase report
cycle does NOT reset the collector — after reporting a non-empty mapping
the collector still holds it, so a subsequent pass does not start empty. -/
theorem C6_counterexample :
    updatedPhase [("/a.md", [Violation.emptyKey])] =
      ([("/a.md", [Violation.emptyKey])],
        some [("/a.md", [Violation.emptyKey])]) ∧
    ([("/a.md", [Violation.emptyKey])] : Collector) ≠ [] := by
  exact ⟨rfl, by decide⟩

/-- Claim C6 as amended: only the `ready()`-phase report drains the
collector: whenever it reports a mapping, that mapping is the full current
(post-processed) contents — nothing lost or duplicated — and the collector
is reset to empty; the `updated()`-phase report leaves the collector
unchanged. -/
theorem C6_drain_ready_only (postProcess : Option (Collector → Collector))
    (st m : Collector) :
    ((readyPhase postProcess st).2 = some m →
      (readyPhase postProcess st).1 = [] ∧
      m = applyPostProcess postProcess st) ∧
    (updatedPhase st).1 = st := by
  constructor
  · intro h
    unfold readyPhase at h
    by_cases hlen : (applyPostProcess postProcess st).length ≠ 0
    · rw [if_pos hlen] at h
      refine ⟨?_, (Option.some.inj h).symm⟩
      unfold readyPhase
      rw [if_pos hlen]
    · rw [if_neg hlen] at h
      exact absurd h (by simp)
  · unfold updatedPhase
    split <;> rfl

/-- Witness for C6 as amended: draining a one-entry collector in the ready
phase reports that entry and leaves the collector empty, and the updated
phase leaves the same collector untouched. -/
theorem C6_witness :
    (readyPhase none [("/a.md", [Violation.emptyKey])]).1 = [] ∧
    (updatedPhase [("/a.md", [Violation.emptyKey])]).1 =
      [("/a.md", [Violation.emptyKey])] :=
  ⟨((C6_drain_ready_only none [("/a.md", [Violation.emptyKey])]
      [("/a.md", [Violation.emptyKey])]).1 rfl).1,
   (C6_drain_ready_only none [("/a.md", [Violation.emptyKey])] []).2⟩

/-- Claim C7: a record whose identity matches the exclusion predicate is
skipped entirely — the collector is unchanged (zero violations recorded
for that identity), regardless of metadata content and schema. -/
theorem C7_exclusion (specs : Schema) (excluded : String → Bool)
    (page : Page) (st : Collector)
    (h : excluded page.regularPath = true) :
    extendPageData specs excluded page st = (st, none) := by
  unfold extendPageData
  rw [h]
  rfl

/-- Witness for C7: an excluded page with garbage metadata (empty key,
null value) records nothing under any schema. -/
theorem C7_witness :
    extendPageData [] (fun p => p == "/skip.md")
        ⟨"/skip.md", [("", Value.vNull), ("x", Value.vUndefined)]⟩ [] =
      ([], none) :=
  C7_exclusion [] (fun p => p == "/skip.md")
    ⟨"/skip.md", [("", Value.vNull), ("x", Value.vUndefined)]⟩ [] rfl

/-- Claim C8: with no `specs` supplied the plugin factory returns the
hook-less no-op plugin; a whole corpus run validates nothing and records
zero violations. -/
theorem C8_no_specs (excluded : String → Bool) (pages : List Page) :
    pluginInit .absent = .noSpecs ∧
    pluginRun .absent excluded pages = ([], none) :=
  ⟨rfl, rfl⟩

/-- Claim C9: collector invariant — a violation append preserves
every-entry-non-empty, an entry is created exactly at its first violation
(fresh path: a new singleton entry at the end; known path: the key set is
unchanged), and a record producing zero violations gains no entry. -/
theorem C9_collector_invariant :
    (∀ (st : Collector) (path : String) (e : Violation),
      (∀ p ∈ st, p.2 ≠ []) → ∀ p ∈ addError st path e, p.2 ≠ []) ∧
    (∀ (st : Collector) (path : String) (e : Violation),
      hasPath st path = false → addError st path e = st ++ [(path, [e])]) ∧
    (∀ (st : Collector) (path : String) (e : Violation),
      (addError st path e).map (fun p => p.1) =
        if hasPath st path = true then st.map (fun p => p.1)
        else st.map (fun p => p.1) ++ [path]) ∧
    (∀ (specs : Schema) (excluded : String → Bool) (page : Page)
      (st : Collector),
      excluded page.regularPath = false →
      missingViolations specs page.frontmatter = [] →
      keyViolations specs page.frontmatter = .ok [] →
      extendPageData specs excluded page st = (st, none)) := by
  refine ⟨?_, ?_, ?_, ?_⟩
  · intro st path e hinv p hp
    unfold addError at hp
    split at hp
    · rw [List.mem_map] at hp
      obtain ⟨q, hq, hpq⟩ := hp
      subst hpq
      split
      · simp
      · exact hinv q hq
    · rw [List.mem_append] at hp
      cases hp with
      | inl hmem => exact hinv p hmem
      | inr hmem =>
        simp only [List.mem_singleton] at hmem
        subst hmem
        simp
  · intro st path e h
    exact addError_fresh st path e h
  · intro st path e
    unfold addError
    by_cases h : hasPath st path = true
    · rw [if_pos h, if_pos h, update_keys_id]
    · rw [if_neg h, if_neg h]
      simp
  · intro specs excluded page st hex hmiss hkv
    rw [extendPageData_ok specs excluded page st [] hex hkv, hmiss]
    rfl

/-- Witness for C9: invariant preservation and entry creation at concrete
inputs, and a clean record leaving the collector without a new entry. -/
theorem C9_witness :
    (∀ p ∈ addError [("/a.md", [Violation.emptyKey])] "/b.md"
        (.invalidKey "x"), p.2 ≠ []) ∧
    addError [] "/b.md" (.invalidKey "x") =
      [("/b.md", [.invalidKey "x"])] ∧
    extendPageData [("title", ⟨false, stringCtor, none⟩)] (fun _ => false)
        ⟨"/c.md", [("title", Value.vStr "t")]⟩
        [("/a.md", [Violation.emptyKey])] =
      ([("/a.md", [Violation.emptyKey])], none) :=
  ⟨C9_collector_invariant.1 [("/a.md", [Violation.emptyKey])] "/b.md"
      (.invalidKey "x") (by decide),
   C9_collector_invariant.2.1 [] "/b.md" (.invalidKey "x") rfl,
   C9_collector_invariant.2.2.2 [("title", ⟨false, stringCtor, none⟩)]
      (fun _ => false) ⟨"/c.md", [("title", Value.vStr "t")]⟩
      [("/a.md", [Violation.emptyKey])] rfl rfl rfl⟩

/-- Claim C10: allowed-value membership is decided by strict (reference)
equality against the elements of `allowedValues`: membership holds exactly
when the value is strictly equal to some element, so a structured value
that is deep-equal to — but not identical with — the allowed elements is
rejected with an INVALID_VALUE violation once it reaches the
allowed-value check. -/
theorem C10_strict_equality (specs : Schema) (k : String) (spec : FieldSpec)
    (av : List Value) (oid : Nat) (cs : List String) (c : Nat)
    (r : AssertResult)
    (hk : (k == "") = false)
    (hs : lookupSpec specs k = some spec)
    (hav : spec.allowedValues = some av)
    (ht : assertType (Value.vObj oid cs c) spec.type = .ok r)
    (hv : r.valid = true)
    (_hdeep : ∃ w ∈ av, deepEq (Value.vObj oid cs c) w = true)
    (hid : ∀ w ∈ av, strictEq w (Value.vObj oid cs c) = false) :
    checkKey specs k (Value.vObj oid cs c) =
      .ok (some (.invalidValue k av (Value.vObj oid cs c))) ∧
    (assertAllowedValue (Value.vObj oid cs c) av = true ↔
      ∃ w ∈ av, strictEq w (Value.vObj oid cs c) = true) := by
  have hmem : assertAllowedValue (Value.vObj oid cs c) av = false := by
    unfold assertAllowedValue
    rw [List.any_eq_false]
    intro w hw
    simp [hid w hw]
  constructor
  · unfold checkKey
    rw [hk]
    simp [hs, isEmptyValue, bind, Except.bind, ht, hv, hav, hmem,
      pure, Except.pure]
  · simp [assertAllowedValue, List.any_eq_true]

/-- Witness for C10: the object `#2` with content 5 is deep-equal to the
allowed object `#1` with content 5 but not identical, so the key draws an
INVALID_VALUE violation. -/
theorem C10_witness :
    checkKey [("obj", ⟨false, objectCtor, some [Value.vObj 1 ["Object"] 5]⟩)]
        "obj" (Value.vObj 2 ["Object"] 5) =
      .ok (some (.invalidValue "obj" [Value.vObj 1 ["Object"] 5]
        (Value.vObj 2 ["Object"] 5))) :=
  (C10_strict_equality
    [("obj", ⟨false, objectCtor, some [Value.vObj 1 ["Object"] 5]⟩)]
    "obj" ⟨false, objectCtor, some [Value.vObj 1 ["Object"] 5]⟩
    [Value.vObj 1 ["Object"] 5] 2 ["Object"] 5 ⟨true, "Object"⟩
    rfl rfl rfl rfl rfl (by decide) (by decide)).1

end FrontmatterLint
